import Mathlib

/-!
Verification development for the M5Stack GPS lap timer (src/src/main.cpp).

The C++ program is shallowly embedded:
* bytes are `ℕ` (ASCII codes), C strings are `List ℕ` truncated at the
  first NUL where the source uses `strchr`/`strlen`/`strtok_r`;
* `double`/`float` values are modelled as exact rationals `ℚ`
  (the claims under study only exercise decimal arithmetic);
* C `int`/`long` are `ℤ`, the millisecond clock is passed in as input;
* the libm geodesic math (`sin`, `cos`, `atan2`, `sqrt`) is modelled over `ℝ`.

Character codes used throughout: 36 = dollar, 42 = star, 44 = comma,
13 = CR, 10 = LF, 0 = NUL, 65 = A, 83 = S, 87 = W,
82 77 67 = "RMC", 71 71 65 = "GGA".
-/

set_option maxRecDepth 20000

namespace GPSLap

/-- Convert a Lean string to the list of ASCII byte values, for writing
concrete NMEA test lines. -/
def strBytes (s : String) : List ℕ :=
  s.data.map Char.toNat

/-! ## Numeric field parsing: models of C `atoi` / `atof` (`strtod`) -/

/-- ASCII decimal digit test. -/
def isDigitB (c : ℕ) : Bool :=
  decide (48 ≤ c ∧ c ≤ 57)

/-- C `isspace` for the characters skipped by `atoi`/`strtod`. -/
def isSpaceB (c : ℕ) : Bool :=
  decide (c = 32 ∨ (9 ≤ c ∧ c ≤ 13))

/-- Value of a list of decimal digit bytes, most significant first. -/
def digitsVal (l : List ℕ) : ℤ :=
  l.foldl (fun a c => a * 10 + ((c : ℤ) - 48)) 0

/-- Model of C `atoi`: skip whitespace, optional sign, leading digits. -/
def atoi (l : List ℕ) : ℤ :=
  let l := l.dropWhile isSpaceB
  match l with
  | 43 :: t => digitsVal (t.takeWhile isDigitB)
  | 45 :: t => -(digitsVal (t.takeWhile isDigitB))
  | _ => digitsVal (l.takeWhile isDigitB)

/-- Decimal part of `atof`: digits, optional point and fraction digits,
optional exponent. -/
def atofNum (l : List ℕ) : ℚ :=
  let ip := l.takeWhile isDigitB
  let r1 := l.dropWhile isDigitB
  let fp := match r1 with
    | 46 :: t => t.takeWhile isDigitB
    | _ => []
  let r2 := match r1 with
    | 46 :: t => t.dropWhile isDigitB
    | _ => r1
  let ex : ℤ := match r2 with
    | c :: t => if c = 101 ∨ c = 69 then atoi t else 0
    | [] => 0
  ((digitsVal ip : ℚ) + (digitsVal fp : ℚ) / (10 : ℚ) ^ fp.length) * (10 : ℚ) ^ ex

/-- Model of C `atof` on decimal inputs: whitespace, sign, number. -/
def atof (l : List ℕ) : ℚ :=
  let l := l.dropWhile isSpaceB
  match l with
  | 43 :: t => atofNum t
  | 45 :: t => -(atofNum t)
  | _ => atofNum l

/-! ## Checksum helpers (source: `TinyGPSPlus::hex2byte`, lines 95-103) -/

/-- The nibble decoder lambda `h` inside `hex2byte`: case-insensitive hex
digit value, any other character decodes as 0. -/
def hexNib (c : ℕ) : ℕ :=
  if 48 ≤ c ∧ c ≤ 57 then c - 48
  else if 65 ≤ c ∧ c ≤ 70 then c - 65 + 10
  else if 97 ≤ c ∧ c ≤ 102 then c - 97 + 10
  else 0

/-- Function `hex2byte`: `(h(p[0]) << 4) | h(p[1])`. -/
def hex2byte (c1 c2 : ℕ) : ℕ :=
  (hexNib c1 <<< 4) ||| hexNib c2

/-- Running XOR of a byte list, as computed by the loop
`for (p = body; p < ast; ++p) cs ^= *p;` (lines 184-185). -/
def csum (l : List ℕ) : ℕ :=
  l.foldl (fun a c => a ^^^ c) 0

/-! ## Field splitting (source: `strtok_r` loop, lines 194-199)

`strtok_r` with delimiter `","` skips leading and repeated delimiters:
it yields the maximal nonempty comma-free substrings, never an empty
token.  `tokensAux` is a direct one-pass model: `cur` is the token
currently being accumulated (in reverse). -/

def tokensAux : List ℕ → List ℕ → List (List ℕ)
  | [], cur => if cur = [] then [] else [cur.reverse]
  | c :: t, cur =>
      if c = 44 then
        if cur = [] then tokensAux t [] else cur.reverse :: tokensAux t []
      else tokensAux t (c :: cur)

/-- The tokens produced by repeated `strtok_r(body, ",", &save)`. -/
def tokens (l : List ℕ) : List (List ℕ) :=
  tokensAux l []

/-- The field array built by `parseLine`: at most 24 tokens are stored
(`nf < 24`), further tokens are dropped. -/
def fieldsOf (l : List ℕ) : List (List ℕ) :=
  (tokens l).take 24

/-- Modelled from the spec: "Split the remaining body on a comma into
ordered fields", counting empty substrings as (empty) fields.  This is
the comparison definition for claim C2; the `strtok_r` loop of the source is
`tokens` above. -/
def specCommaSplit : List ℕ → List (List ℕ)
  | [] => [[]]
  | c :: t =>
      if c = 44 then [] :: specCommaSplit t
      else
        match specCommaSplit t with
        | [] => [[c]]
        | f :: r => (c :: f) :: r

/-! ## The Fix record and per-sentence parsers -/

/-- The decoder-owned fix: location, date, time, speed, altitude,
satellites (source lines 17-50), all zero-initialised. -/
structure Fix where
  lat : ℚ
  lng : ℚ
  year : ℤ
  month : ℤ
  day : ℤ
  hour : ℤ
  minute : ℤ
  second : ℤ
  kmph : ℚ
  meters : ℚ
  sats : ℤ
deriving DecidableEq, Repr

/-- The zero-initialised fix of the global `TinyGPSPlus gps;`. -/
def zeroFix : Fix :=
  ⟨0, 0, 0, 0, 0, 0, 0, 0, 0, 0, 0⟩

/-- Access `f[i]` on the field array; parse steps only access `i ≤ 9` after
checking `n ≥ 10`, so the index is always in range. -/
def fieldAt (fs : List (List ℕ)) (i : ℕ) : List ℕ :=
  fs.getD i []

/-- Truncation toward zero, the C `(int)` cast applied to a double. -/
def ratTrunc (q : ℚ) : ℤ :=
  if 0 ≤ q then ⌊q⌋ else -⌊-q⌋

/-- Function `nmeaToDeg` (lines 105-112): `ddmm.mmmm` to decimal degrees. -/
def nmeaToDeg (s : List ℕ) : ℚ :=
  if s = [] then 0
  else
    let v := atof s
    let deg := ratTrunc (v / 100)
    (deg : ℚ) + (v - (deg : ℚ) * 100) / 60

/-- Function `parseTime_hhmmss` (lines 114-123). -/
def parseTime (fx : Fix) (s : List ℕ) : Fix :=
  if s.length < 6 then fx
  else
    { fx with
      hour := atoi (s.take 2)
      minute := atoi ((s.drop 2).take 2)
      second := atoi ((s.drop 4).take 2) }

/-- Function `parseDate_ddmmyy` (lines 125-138), with the 80-99 century pivot. -/
def parseDate (fx : Fix) (s : List ℕ) : Fix :=
  if s.length < 6 then fx
  else
    let d := atoi (s.take 2)
    let m := atoi ((s.drop 2).take 2)
    let y := atoi ((s.drop 4).take 2)
    { fx with
      day := d
      month := m
      year := if 80 ≤ y then 1900 + y else 2000 + y }

/-- Function `setLatLon` (lines 140-151). -/
def setLatLon (fx : Fix) (lat ns lon ew : List ℕ) : Fix :=
  if lat = [] ∨ lon = [] then fx
  else
    let la := nmeaToDeg lat
    let lo := nmeaToDeg lon
    let la := if ns.head? = some 83 then -la else la
    let lo := if ew.head? = some 87 then -lo else lo
    { fx with lat := la, lng := lo }

/-- Function `parseRMC` (lines 153-164): requires at least 10 fields and
status field letter A. -/
def parseRMC (f : List (List ℕ)) (fx : Fix) : Fix :=
  if f.length < 10 then fx
  else if (fieldAt f 2).head? ≠ some 65 then fx
  else
    let fx1 := parseTime fx (fieldAt f 1)
    let fx2 := setLatLon fx1 (fieldAt f 3) (fieldAt f 4) (fieldAt f 5) (fieldAt f 6)
    let knots := if fieldAt f 7 ≠ [] then atof (fieldAt f 7) else 0
    let fx3 := { fx2 with kmph := knots * (1852/1000 : ℚ) }
    parseDate fx3 (fieldAt f 9)

/-- Function `parseGGA` (lines 166-174). -/
def parseGGA (f : List (List ℕ)) (fx : Fix) : Fix :=
  if f.length < 10 then fx
  else
    let fx1 := parseTime fx (fieldAt f 1)
    let fx2 := setLatLon fx1 (fieldAt f 2) (fieldAt f 3) (fieldAt f 4) (fieldAt f 5)
    let fx3 := { fx2 with sats := if fieldAt f 7 ≠ [] then atoi (fieldAt f 7) else fx2.sats }
    { fx3 with meters := if fieldAt f 9 ≠ [] then atof (fieldAt f 9) else fx3.meters }

/-- Sentence dispatch on the last 3 characters of field 0
(lines 200-212), after the `nf <= 0` check. -/
def parseFields (fs : List (List ℕ)) (fx : Fix) : Fix :=
  match fs with
  | [] => fx
  | ty :: _ =>
      if ty.length < 3 then fx
      else
        let suf := ty.drop (ty.length - 3)
        if suf = [82, 77, 67] then parseRMC fs fx
        else if suf = [71, 71, 65] then parseGGA fs fx
        else fx

/-- The C-string view of the capture buffer: string functions
(`strchr`, `strlen`, `strtok_r`) stop at the first NUL. -/
def lineView (line : List ℕ) : List ℕ :=
  line.takeWhile (fun c => decide (c ≠ 0))

/-- The `"*hh"` check of lines 187-189: at least two characters after
the star, whose `hex2byte` decoding must equal the body XOR. -/
def checkTail (pre tl : List ℕ) : Bool :=
  match tl with
  | c1 :: c2 :: _ => decide (csum pre = hex2byte c1 c2)
  | _ => false

/-- Checksum validation on the part after the dollar (lines 180-189):
find the first star (reject if absent or immediately after the
dollar), then check the two characters after it. -/
def acceptsBody (body : List ℕ) : Bool :=
  match body.dropWhile (fun x => decide (x ≠ 42)) with
  | [] => false
  | _ :: tl =>
      if (body.takeWhile (fun x => decide (x ≠ 42))).length = 0 then false
      else checkTail (body.takeWhile (fun x => decide (x ≠ 42))) tl

/-- The checksum-validation phase of `parseLine` (lines 176-191): the
line must start with a dollar and its body must validate. -/
def accepts (line : List ℕ) : Bool :=
  match lineView line with
  | [] => false
  | c :: body => if c = 36 then acceptsBody body else false

/-- The body handed to the `strtok_r` loop: characters strictly between
the initial dollar and the first star (the star is overwritten with NUL
at line 191). -/
def bodyOf (line : List ℕ) : List ℕ :=
  ((lineView line).drop 1).takeWhile (fun x => decide (x ≠ 42))

/-- Function `parseLine` (lines 176-213): validate, then split and dispatch. -/
def parseLine (line : List ℕ) (fx : Fix) : Fix :=
  if accepts line then parseFields (fieldsOf (bodyOf line)) fx else fx

/-! ## The byte-wise decoder (source: `encode`, lines 52-73) -/

/-- Decoder state: the capture buffer (capacity 159 characters plus the
terminating NUL) and the current fix. -/
structure DecState where
  buf : List ℕ
  fix : Fix
deriving DecidableEq, Repr

/-- Zero-initialised decoder (global object, empty buffer). -/
def initDec : DecState :=
  ⟨[], zeroFix⟩

/-- Function `encode(c)`: CR is ignored, a dollar restarts capture, other bytes
are appended while capacity remains, LF triggers `parseLine` on the
buffer (which then contains the LF) and resets the index. -/
def encode (s : DecState) (c : ℕ) : DecState :=
  if c = 13 then s
  else if c = 36 then { s with buf := [36] }
  else
    let buf := if s.buf.length < 159 then s.buf ++ [c] else s.buf
    if c = 10 then { buf := [], fix := parseLine buf s.fix }
    else { s with buf := buf }

/-- Feed a byte list through `encode`, one byte at a time. -/
def feed (s : DecState) (l : List ℕ) : DecState :=
  l.foldl encode s

/-! ## Concrete NMEA lines for the claims -/

/-- The sentence of claim C1, with its correct checksum `00`. -/
def lineA : List ℕ :=
  strBytes ("$GPRMC,123519,A,3522.1920,N,13932.1920,E,10.0,,100200,,*00") ++ [10]

/-- The C1 sentence with the empty course and variation fields filled,
checksum `6E`. -/
def lineB : List ℕ :=
  strBytes ("$GPRMC,123519,A,3522.1920,N,13932.1920,E,10.0,84.4,100200,1.0,W*6E") ++ [10]

/-- Line `lineB` with the checksum digit `E` replaced by the different
character `e` (which `hex2byte` decodes to the same value). -/
def lineB2 : List ℕ :=
  strBytes ("$GPRMC,123519,A,3522.1920,N,13932.1920,E,10.0,84.4,100200,1.0,W*6e") ++ [10]

/-- A line whose two checksum characters are not hex digits at all:
both decode as 0, and the body `AA` XORs to 0. -/
def lineZZ : List ℕ :=
  strBytes ("$AA*zz") ++ [10]

/-! ## Lap counting (source: globals lines 224-232, `CountLAP` lines
453-491, `writeData` lines 697-708, plus the `TopSpeed` update of
`ReadGPS` lines 418-420)

One control cycle feeds `CountLAP` the current distance to the
reference point, the manual-override button, the millisecond clock and
(through `ReadGPS`) the current speed; whether the SD file opens is the
persistence-success input of `writeData`. -/

/-- The per-cycle inputs read by the lap machinery. -/
structure Cycle where
  dist : ℚ
  btnC : Bool
  fileOk : Bool
  t : ℚ
  kmph : ℚ
deriving DecidableEq, Repr

/-- The mutable lap-timing globals. -/
structure LapState where
  lapCount : ℤ
  lap : ℚ
  lap1 : ℚ
  lap2 : ℚ
  lap3 : ℚ
  lap4 : ℚ
  lap5 : ℚ
  bestLap : ℚ
  bestLapNum : ℤ
  averageLap : ℚ
  sprit : ℚ
  beforeTime : ℚ
  lapcountnow : Bool
  topSpeed : ℚ
  laprad : ℚ
deriving DecidableEq, Repr

/-- Startup state: zero-initialised globals, `BestLap = 99999.0f`,
`LAPRAD = 5.0f` (lines 228, 231). -/
def initState : LapState :=
  { lapCount := 0, lap := 0, lap1 := 0, lap2 := 0, lap3 := 0, lap4 := 0
    lap5 := 0, bestLap := 99999, bestLapNum := 0, averageLap := 0
    sprit := 0, beforeTime := 0, lapcountnow := false, topSpeed := 0
    laprad := 5 }

/-- The `TopSpeed` maximum update in `ReadGPS` (lines 418-420). -/
def speedUpd (s : LapState) (c : Cycle) : LapState :=
  if s.topSpeed < c.kmph then { s with topSpeed := c.kmph } else s

/-- The re-arming check at the top of `CountLAP` (lines 455-457). -/
def rearm (s : LapState) (c : Cycle) : LapState :=
  if s.laprad ≤ c.dist ∧ c.btnC = false ∧ s.lapcountnow = true then
    { s with lapcountnow := false }
  else s

/-- The firing condition of `CountLAP` (lines 460-462). -/
def fireCond (s : LapState) (c : Cycle) : Bool :=
  decide (((c.dist ≠ 0 ∧ c.dist ≤ s.laprad) ∨ c.btnC = true) ∧
    s.lapcountnow = false ∧ 10 < (c.t - s.beforeTime) / 1000)

/-- The body of the firing branch (lines 464-489), including the
`writeData` call: the record is appended and `TopSpeed` reset only when
the SD file opens (lines 698-707). -/
def fireStep (s : LapState) (c : Cycle) : LapState :=
  if 0 < s.lapCount then
    let lapNew := (c.t - s.beforeTime) / 1000
    let s1 := { s with lap5 := s.lap4, lap4 := s.lap3, lap3 := s.lap2
                       lap2 := s.lap1, lap1 := s.lap, lap := lapNew
                       beforeTime := c.t }
    let s2 := if lapNew < s1.bestLap then
                { s1 with bestLap := lapNew, bestLapNum := s1.lapCount }
              else s1
    let s3 := if c.fileOk then { s2 with topSpeed := 0 } else s2
    let s4 := { s3 with sprit := s3.sprit + lapNew }
    let s5 := if 1 < s4.lapCount then
                { s4 with averageLap := s4.sprit / (s4.lapCount : ℚ) }
              else s4
    { s5 with lapCount := s5.lapCount + 1, lapcountnow := true }
  else
    { s with beforeTime := c.t, lapCount := s.lapCount + 1, lapcountnow := true }

/-- Function `CountLAP` as a whole: the re-arm check, then the guarded fire. -/
def countLAP (s : LapState) (c : Cycle) : LapState :=
  if fireCond (rearm s c) c then fireStep (rearm s c) c else rearm s c

/-- One control cycle, restricted to the lap machinery: the `TopSpeed`
update of `ReadGPS`, then `CountLAP`. -/
def step (s : LapState) (c : Cycle) : LapState :=
  countLAP (speedUpd s c) c

/-- Whether the cycle fires a lap event (takes the trigger branch). -/
def fires (s : LapState) (c : Cycle) : Bool :=
  fireCond (rearm (speedUpd s c) c) c

/-- Run a sequence of cycles. -/
def run (s : LapState) (l : List Cycle) : LapState :=
  l.foldl step s

/-- The same cycle with the persistence-success input replaced. -/
def withFileOk (c : Cycle) (b : Bool) : Cycle :=
  ⟨c.dist, c.btnC, b, c.t, c.kmph⟩

/-- A lap state with the top-speed accumulator erased, for comparing
states up to the accumulator. -/
def eraseTop (s : LapState) : LapState :=
  ⟨s.lapCount, s.lap, s.lap1, s.lap2, s.lap3, s.lap4, s.lap5, s.bestLap,
    s.bestLapNum, s.averageLap, s.sprit, s.beforeTime, s.lapcountnow, 0,
    s.laprad⟩

/-- Two dips under the radius 5 s apart (debounce holds). -/
def dipsFast : List Cycle :=
  [⟨3, false, true, 20000, 0⟩, ⟨10, false, true, 22000, 0⟩,
   ⟨3, false, true, 25000, 0⟩]

/-- Two dips 15 s apart with an exit beyond the radius in between. -/
def dipsSlow : List Cycle :=
  [⟨3, false, true, 20000, 0⟩, ⟨10, false, true, 22000, 0⟩,
   ⟨3, false, true, 35000, 0⟩]

/-! ## The geodetic distance function (source: `distanceBetween`,
lines 75-89), modelled over the reals -/

/-- The degree-to-radian constant of line 78. -/
noncomputable def d2r : ℝ :=
  0.017453292519943295

/-- C `atan2(y, x)`: quadrant-aware arctangent. -/
noncomputable def atan2 (y x : ℝ) : ℝ :=
  if 0 < x then Real.arctan (y / x)
  else if x < 0 ∧ 0 ≤ y then Real.arctan (y / x) + Real.pi
  else if x < 0 ∧ y < 0 then Real.arctan (y / x) - Real.pi
  else if x = 0 ∧ 0 < y then Real.pi / 2
  else if x = 0 ∧ y < 0 then -(Real.pi / 2)
  else 0

/-- The haversine intermediate `a` of lines 85-86. -/
noncomputable def havTerm (lat1 lon1 lat2 lon2 : ℝ) : ℝ :=
  Real.sin ((lat2 - lat1) * d2r * 0.5) * Real.sin ((lat2 - lat1) * d2r * 0.5) +
    Real.cos (lat1 * d2r) * Real.cos (lat2 * d2r) *
      Real.sin ((lon2 - lon1) * d2r * 0.5) * Real.sin ((lon2 - lon1) * d2r * 0.5)

/-- Function `distanceBetween` (lines 75-89): haversine distance in meters with
Earth radius 6371000. -/
noncomputable def distanceBetween (lat1 lon1 lat2 lon2 : ℝ) : ℝ :=
  6371000 *
    (2 * atan2 (Real.sqrt (havTerm lat1 lon1 lat2 lon2))
      (Real.sqrt (1 - havTerm lat1 lon1 lat2 lon2)))

/-! ## General helper lemmas -/

lemma takeWhile_append_all (p : ℕ → Bool) (a b : List ℕ)
    (h : ∀ x ∈ a, p x = true) :
    (a ++ b).takeWhile p = a ++ b.takeWhile p := by
  induction a with
  | nil => simp
  | cons c u ih =>
      rw [List.cons_append, List.takeWhile_cons_of_pos (h c (by simp)),
        ih (fun x hx => h x (by simp [hx]))]
      rfl

lemma dropWhile_append_all (p : ℕ → Bool) (a b : List ℕ)
    (h : ∀ x ∈ a, p x = true) :
    (a ++ b).dropWhile p = b.dropWhile p := by
  induction a with
  | nil => simp
  | cons c u ih =>
      rw [List.cons_append, List.dropWhile_cons_of_pos (h c (by simp))]
      exact ih (fun x hx => h x (by simp [hx]))

lemma foldl_xor_init (l : List ℕ) : ∀ x : ℕ,
    l.foldl (fun a c => a ^^^ c) x = x ^^^ l.foldl (fun a c => a ^^^ c) 0 := by
  induction l with
  | nil => intro x; simp
  | cons c t ih =>
      intro x
      rw [List.foldl_cons, List.foldl_cons, ih (x ^^^ c), ih (0 ^^^ c),
        Nat.zero_xor, Nat.xor_assoc]

lemma csum_append_cons (u v : List ℕ) (b : ℕ) :
    csum (u ++ b :: v) = (csum u ^^^ b) ^^^ csum v := by
  unfold csum
  rw [List.foldl_append, List.foldl_cons, foldl_xor_init]

/-- Flipping one byte inside the checksummed span changes the XOR. -/
lemma csum_flip_ne (u v : List ℕ) (b bp : ℕ) (hne : bp ≠ b) :
    csum (u ++ b :: v) ≠ csum (u ++ bp :: v) := by
  rw [csum_append_cons, csum_append_cons]
  intro h
  exact hne (Nat.xor_right_inj.mp (Nat.xor_left_inj.mp h)).symm

/-! ## Claim C9: the distance function vanishes on equal points and is
symmetric -/

lemma havTerm_self (lat lon : ℝ) : havTerm lat lon lat lon = 0 := by
  unfold havTerm
  simp

lemma havTerm_symm (a b c d : ℝ) : havTerm a b c d = havTerm c d a b := by
  unfold havTerm
  have h1 : (a - c) * d2r * 0.5 = -((c - a) * d2r * 0.5) := by ring
  have h2 : (b - d) * d2r * 0.5 = -((d - b) * d2r * 0.5) := by ring
  rw [h1, h2, Real.sin_neg, Real.sin_neg]
  ring

/-- Claim C9: the geodetic distance function is identically zero on
equal points, and it is symmetric in its two argument pairs. -/
theorem distance_zero_and_symm :
    (∀ lat lon : ℝ, distanceBetween lat lon lat lon = 0) ∧
    (∀ lat1 lon1 lat2 lon2 : ℝ,
      distanceBetween lat1 lon1 lat2 lon2 = distanceBetween lat2 lon2 lat1 lon1) := by
  constructor
  · intro lat lon
    unfold distanceBetween
    rw [havTerm_self, Real.sqrt_zero, sub_zero, Real.sqrt_one]
    rw [atan2, if_pos (by norm_num : (0:ℝ) < 1)]
    simp
  · intro a b c d
    unfold distanceBetween
    rw [havTerm_symm a b c d]

/-! ## Claim C1: the end-to-end RMC scenario -/

/-- Claim C1 (counterexample): feeding the exact sentence of the spec
(`...,10.0,,100200,,*00` plus LF), byte by byte from the
zero-initialised decoder, leaves the whole fix unchanged — in
particular the speed is 0, not 18.52 km/h — because `strtok_r` skips
the empty course and variation fields, leaving only 9 fields, and
`parseRMC` requires at least 10.  (18.52 is written 463/25.) -/
theorem c1_rmc_scenario_fails :
    (feed initDec lineA).fix = zeroFix ∧
    (feed initDec lineA).fix.kmph ≠ (463/25 : ℚ) := by
  constructor
  · with_unfolding_all decide
  · with_unfolding_all decide

/-- Claim C1 (amended): the same sentence with the course and magnetic
variation fields filled in (12 nonempty fields, checksum `6E`) does
set the speed to 10.0 × 1.852 = 18.52 km/h (written 463/25) and the
date to 2000-02-10. -/
theorem c1_rmc_scenario_amended :
    (feed initDec lineB).fix.kmph = (463/25 : ℚ) ∧
    (feed initDec lineB).fix.year = 2000 ∧
    (feed initDec lineB).fix.month = 2 ∧
    (feed initDec lineB).fix.day = 10 := by
  refine ⟨?_, ?_, ?_, ?_⟩ <;> with_unfolding_all decide

/-! ## Claim C2: field splitting -/

lemma specCommaSplit_cons_comma (t : List ℕ) :
    specCommaSplit (44 :: t) = [] :: specCommaSplit t := by
  simp [specCommaSplit]

lemma specCommaSplit_cons_other (c : ℕ) (t : List ℕ) (hc : c ≠ 44) :
    specCommaSplit (c :: t) =
      match specCommaSplit t with
      | [] => [[c]]
      | f :: r => (c :: f) :: r := by
  simp [specCommaSplit, hc]

lemma specCommaSplit_no_comma (a : List ℕ) (h : (44:ℕ) ∉ a) :
    specCommaSplit a = [a] := by
  induction a with
  | nil => rfl
  | cons c t ih =>
      have hc : c ≠ 44 := fun e => h (by simp [e])
      have ht : (44:ℕ) ∉ t := fun m => h (List.mem_cons_of_mem _ m)
      rw [specCommaSplit_cons_other c t hc, ih ht]

lemma specCommaSplit_append (a t : List ℕ) (h : (44:ℕ) ∉ a) :
    specCommaSplit (a ++ 44 :: t) = a :: specCommaSplit t := by
  induction a with
  | nil => simp [specCommaSplit_cons_comma]
  | cons c u ih =>
      have hc : c ≠ 44 := fun e => h (by simp [e])
      have hu : (44:ℕ) ∉ u := fun m => h (List.mem_cons_of_mem _ m)
      rw [List.cons_append, specCommaSplit_cons_other c _ hc, ih hu]

lemma tokensAux_eq (l : List ℕ) : ∀ cur : List ℕ, (44:ℕ) ∉ cur →
    tokensAux l cur =
      (specCommaSplit (cur.reverse ++ l)).filter (fun f => !f.isEmpty) := by
  induction l with
  | nil =>
      intro cur h
      have hr : (44:ℕ) ∉ cur.reverse := by simpa using h
      rw [List.append_nil, specCommaSplit_no_comma _ hr, List.filter_cons]
      by_cases hc : cur = []
      · simp [tokensAux, hc]
      · have hrne : cur.reverse ≠ [] := by simpa using hc
        simp [tokensAux, hc, List.isEmpty_iff, hrne]
  | cons c t ih =>
      intro cur h
      have hr : (44:ℕ) ∉ cur.reverse := by simpa using h
      by_cases hc : c = 44
      · subst hc
        rw [specCommaSplit_append _ _ hr, List.filter_cons]
        have ht := ih [] (by simp)
        simp only [List.reverse_nil, List.nil_append] at ht
        by_cases hcur : cur = []
        · subst hcur
          simpa [tokensAux] using ht
        · have hrne : cur.reverse ≠ [] := by simpa using hcur
          simp [tokensAux, hcur, List.isEmpty_iff, hrne, ht]
      · rw [show tokensAux (c :: t) cur = tokensAux t (c :: cur) by
          simp [tokensAux, hc]]
        have hcc : (44:ℕ) ∉ c :: cur := by
          intro m
          rcases List.mem_cons.mp m with e | e
          · exact hc e.symm
          · exact h e
        rw [ih (c :: cur) hcc, List.reverse_cons, List.append_assoc,
          List.singleton_append]

lemma tokens_eq_filter (l : List ℕ) :
    tokens l = (specCommaSplit l).filter (fun f => !f.isEmpty) := by
  have := tokensAux_eq l [] (by simp)
  simpa [tokens] using this

/-- Claim C2 (counterexample): for the checksum-validated line `lineA`,
the field list of the code is not the comma-position split of the body: the
comma split has 12 fields (three of them empty) while `strtok_r`
produces only 9, so the i-th field is not the i-th comma-separated
substring. -/
theorem c2_split_counterexample :
    accepts lineA = true ∧
    fieldsOf (bodyOf lineA) ≠ (specCommaSplit (bodyOf lineA)).take 24 ∧
    (fieldsOf (bodyOf lineA)).length = 9 ∧
    ((specCommaSplit (bodyOf lineA)).take 24).length = 12 := by
  refine ⟨?_, ?_, ?_, ?_⟩ <;> with_unfolding_all decide

/-- Claim C2 (amended): the field list of the parser is the list of
*nonempty* maximal comma-free substrings of the body in order
(`strtok_r` semantics: empty substrings between consecutive commas and
at the ends are skipped, shifting later fields down), capped at 24
fields with the excess dropped; consequently every extracted field is
nonempty. -/
theorem c2_fields_amended (body : List ℕ) :
    fieldsOf body = ((specCommaSplit body).filter (fun f => !f.isEmpty)).take 24 ∧
    ∀ f ∈ fieldsOf body, f ≠ [] := by
  constructor
  · unfold fieldsOf
    rw [tokens_eq_filter]
  · intro f hf
    unfold fieldsOf at hf
    rw [tokens_eq_filter] at hf
    have hm := List.take_subset 24 _ hf
    have := (List.mem_filter.mp hm).2
    simp only [Bool.not_eq_true'] at this
    intro e
    rw [e] at this
    simp at this

/-- Witness for the amended C2 theorem at the concrete body `A,,B`:
the inner universally quantified membership statement is discharged on
a concrete input, and the field list evaluates to `[[65], [66]]`. -/
theorem c2_fields_amended_witness :
    (fieldsOf [65, 44, 44, 66] =
        ((specCommaSplit [65, 44, 44, 66]).filter (fun f => !f.isEmpty)).take 24 ∧
      ∀ f ∈ fieldsOf [65, 44, 44, 66], f ≠ []) ∧
    fieldsOf [65, 44, 44, 66] = [[65], [66]] :=
  ⟨c2_fields_amended [65, 44, 44, 66], by decide⟩

/-! ## Claim C3: checksum validation and corruption -/

lemma mem_ne_pred (a : List ℕ) (k : ℕ) (h : k ∉ a) :
    ∀ x ∈ a, (fun c => decide (c ≠ k)) x = true := by
  intro x hx
  simp only [decide_eq_true_eq]
  exact fun e => h (e ▸ hx)

/-- Evaluation of the validation phase on a line decomposed as dollar,
NUL-free star-free body, star, tail. -/
lemma accepts_decomp (body w : List ℕ) (h0 : (0:ℕ) ∉ body)
    (h42 : (42:ℕ) ∉ body) (hne : body ≠ []) :
    accepts (36 :: body ++ 42 :: w) =
      checkTail body (w.takeWhile (fun c => decide (c ≠ 0))) := by
  have hTW : lineView (36 :: body ++ 42 :: w) =
      36 :: (body ++ 42 :: w.takeWhile (fun c => decide (c ≠ 0))) := by
    unfold lineView
    rw [List.cons_append, List.takeWhile_cons_of_pos (by decide),
      takeWhile_append_all _ _ _ (mem_ne_pred body 0 h0),
      List.takeWhile_cons_of_pos (by decide)]
  have hpre : (body ++ 42 :: w.takeWhile (fun c => decide (c ≠ 0))).takeWhile
      (fun x => decide (x ≠ 42)) = body := by
    rw [takeWhile_append_all _ _ _ (mem_ne_pred body 42 h42),
      List.takeWhile_cons_of_neg (by simp), List.append_nil]
  have hrest : (body ++ 42 :: w.takeWhile (fun c => decide (c ≠ 0))).dropWhile
      (fun x => decide (x ≠ 42)) =
      42 :: w.takeWhile (fun c => decide (c ≠ 0)) := by
    rw [dropWhile_append_all _ _ _ (mem_ne_pred body 42 h42),
      List.dropWhile_cons_of_neg (by simp)]
  have h1 : accepts (36 :: body ++ 42 :: w) =
      acceptsBody (body ++ 42 :: w.takeWhile (fun c => decide (c ≠ 0))) := by
    unfold accepts
    rw [hTW]
    rfl
  rw [h1]
  unfold acceptsBody
  rw [hrest, hpre]
  have hlen : ¬ body.length = 0 := by
    simpa [List.length_eq_zero] using hne
  show (if body.length = 0 then false
    else checkTail body (w.takeWhile (fun c => decide (c ≠ 0)))) = _
  rw [if_neg hlen]

/-- A line with an empty checksummed body is rejected
(the `(ast - body) <= 0` check). -/
lemma accepts_empty_body (w : List ℕ) :
    accepts (36 :: ([] : List ℕ) ++ 42 :: w) = false := by
  have hTW : lineView (36 :: ([] : List ℕ) ++ 42 :: w) =
      36 :: (42 :: w.takeWhile (fun c => decide (c ≠ 0))) := by
    unfold lineView
    rw [show (36 :: ([] : List ℕ) ++ 42 :: w) = 36 :: 42 :: w from rfl,
      List.takeWhile_cons_of_pos (by decide),
      List.takeWhile_cons_of_pos (by decide)]
  have h1 : accepts (36 :: ([] : List ℕ) ++ 42 :: w) =
      acceptsBody (42 :: w.takeWhile (fun c => decide (c ≠ 0))) := by
    unfold accepts
    rw [hTW]
    rfl
  rw [h1]
  clear hTW h1
  unfold acceptsBody
  rw [List.dropWhile_cons_of_neg (by simp), List.takeWhile_cons_of_neg (by simp)]
  rfl

/-- Claim C3 (counterexample): `lineB` is an accepted sentence whose
checksum is `6E`; `lineB2` replaces the checksum hex digit `E` (69)
with the different character `e` (101), yet is still accepted and
updates the fix exactly the same way (speed 463/25 km/h), because
`hex2byte` decodes hex digits case-insensitively.  Moreover `lineZZ`
has zero hex digits after the star (`zz`, decoding as 0) and is still
accepted, its body XOR being 0. -/
theorem c3_corruption_counterexample :
    (feed initDec lineB).fix.kmph = (463/25 : ℚ) ∧
    (feed initDec lineB2).fix.kmph = (463/25 : ℚ) ∧
    lineB2 ≠ lineB ∧
    accepts lineZZ = true := by
  refine ⟨?_, ?_, ?_, ?_⟩ <;> with_unfolding_all decide

/-- Claim C3 (amended): (1) for every accepted line, flipping a single
character strictly between the dollar and the star to a different byte
that is not NUL and not a star yields a line that fails checksum
validation and leaves every field of the fix unchanged; (2) any line
whose two characters after the star `hex2byte`-decode (case-insensitive
hex, non-hex as 0) to a value different from the XOR of the
star-free, NUL-free body is rejected with the fix unchanged; (3) any
line with fewer than 2 characters after the star before the first NUL
(the `strlen(ast) < 3` check) is likewise rejected with the fix
unchanged. -/
theorem c3_corruption_amended :
    (∀ (u v w : List ℕ) (b bp : ℕ) (fx : Fix),
      (0:ℕ) ∉ u → (0:ℕ) ∉ v → (42:ℕ) ∉ u → (42:ℕ) ∉ v →
      b ≠ 0 → b ≠ 42 → bp ≠ b → bp ≠ 0 → bp ≠ 42 →
      accepts (36 :: (u ++ b :: v) ++ 42 :: w) = true →
      accepts (36 :: (u ++ bp :: v) ++ 42 :: w) = false ∧
      parseLine (36 :: (u ++ bp :: v) ++ 42 :: w) fx = fx) ∧
    (∀ (body : List ℕ) (c1 c2 : ℕ) (r : List ℕ) (fx : Fix),
      (0:ℕ) ∉ body → (42:ℕ) ∉ body → c1 ≠ 0 → c2 ≠ 0 →
      hex2byte c1 c2 ≠ csum body →
      parseLine (36 :: body ++ 42 :: c1 :: c2 :: r) fx = fx) ∧
    (∀ (body w : List ℕ) (fx : Fix),
      (0:ℕ) ∉ body → (42:ℕ) ∉ body →
      (w.takeWhile (fun c => decide (c ≠ 0))).length < 2 →
      accepts (36 :: body ++ 42 :: w) = false ∧
      parseLine (36 :: body ++ 42 :: w) fx = fx) := by
  refine ⟨?_, ?_, ?_⟩
  · intro u v w b bp fx hu0 hv0 hu42 hv42 hb0 hb42 hnbb hbp0 hbp42 hacc
    have hm0 : (0:ℕ) ∉ u ++ b :: v := by
      intro m
      rcases List.mem_append.mp m with hA | hA
      · exact hu0 hA
      · rcases List.mem_cons.mp hA with e | e
        · exact hb0 e.symm
        · exact hv0 e
    have hm42 : (42:ℕ) ∉ u ++ b :: v := by
      intro m
      rcases List.mem_append.mp m with hA | hA
      · exact hu42 hA
      · rcases List.mem_cons.mp hA with e | e
        · exact hb42 e.symm
        · exact hv42 e
    have hm0p : (0:ℕ) ∉ u ++ bp :: v := by
      intro m
      rcases List.mem_append.mp m with hA | hA
      · exact hu0 hA
      · rcases List.mem_cons.mp hA with e | e
        · exact hbp0 e.symm
        · exact hv0 e
    have hm42p : (42:ℕ) ∉ u ++ bp :: v := by
      intro m
      rcases List.mem_append.mp m with hA | hA
      · exact hu42 hA
      · rcases List.mem_cons.mp hA with e | e
        · exact hbp42 e.symm
        · exact hv42 e
    rw [accepts_decomp _ w hm0 hm42 (by simp)] at hacc
    rcases hw : w.takeWhile (fun c => decide (c ≠ 0)) with _ | ⟨c1, rest1⟩
    · rw [hw] at hacc
      simp [checkTail] at hacc
    · rcases rest1 with _ | ⟨c2, rest2⟩
      · rw [hw] at hacc
        simp [checkTail] at hacc
      · rw [hw] at hacc
        have hacc2 : csum (u ++ b :: v) = hex2byte c1 c2 := by
          simpa [checkTail] using hacc
        have hflip := csum_flip_ne u v b bp hnbb
        have haccF : accepts (36 :: (u ++ bp :: v) ++ 42 :: w) = false := by
          rw [accepts_decomp _ w hm0p hm42p (by simp), hw]
          simp only [checkTail, decide_eq_false_iff_not]
          exact fun e => hflip (hacc2.trans e.symm)
        refine ⟨haccF, ?_⟩
        unfold parseLine
        rw [haccF]
        simp
  · intro body c1 c2 r fx h0 h42 hc1 hc2 hcs
    by_cases hne : body = []
    · subst hne
      unfold parseLine
      rw [accepts_empty_body]
      simp
    · have hw : (c1 :: c2 :: r).takeWhile (fun c => decide (c ≠ 0)) =
          c1 :: c2 :: r.takeWhile (fun c => decide (c ≠ 0)) := by
        rw [List.takeWhile_cons_of_pos (by simpa using hc1),
          List.takeWhile_cons_of_pos (by simpa using hc2)]
      have hF : accepts (36 :: body ++ 42 :: c1 :: c2 :: r) = false := by
        rw [accepts_decomp body (c1 :: c2 :: r) h0 h42 hne, hw]
        simp only [checkTail, decide_eq_false_iff_not]
        exact fun e => hcs e.symm
      unfold parseLine
      rw [hF]
      simp
  · intro body w fx h0 h42 hlen
    have hF : accepts (36 :: body ++ 42 :: w) = false := by
      by_cases hne : body = []
      · subst hne
        exact accepts_empty_body w
      · rw [accepts_decomp body w h0 h42 hne]
        rcases hw : w.takeWhile (fun c => decide (c ≠ 0)) with _ | ⟨c1, rest1⟩
        · rfl
        · rcases rest1 with _ | ⟨c2, rest2⟩
          · rfl
          · rw [hw] at hlen
            simp only [List.length_cons] at hlen
            omega
    refine ⟨hF, ?_⟩
    unfold parseLine
    rw [hF]
    simp

/-- Witness for the amended C3 theorem: the accepted line `$AB*03`
(body XOR 3), with the body byte `B` flipped to `C`, is rejected and
leaves the zero fix unchanged; the same body with only the single
character `0` after the star is also rejected with the fix
unchanged. -/
theorem c3_corruption_amended_witness :
    accepts (36 :: ([65] ++ 66 :: []) ++ 42 :: [48, 51, 10]) = true ∧
    (accepts (36 :: ([65] ++ 67 :: []) ++ 42 :: [48, 51, 10]) = false ∧
      parseLine (36 :: ([65] ++ 67 :: []) ++ 42 :: [48, 51, 10]) zeroFix = zeroFix) ∧
    (accepts (36 :: [65, 66] ++ 42 :: [48]) = false ∧
      parseLine (36 :: [65, 66] ++ 42 :: [48]) zeroFix = zeroFix) :=
  ⟨by decide,
    c3_corruption_amended.1 [65] [] [48, 51, 10] 66 67 zeroFix (by decide) (by decide)
      (by decide) (by decide) (by decide) (by decide) (by decide) (by decide) (by decide)
      (by decide),
    c3_corruption_amended.2.2 [65, 66] [48] zeroFix (by decide) (by decide) (by decide)⟩


/-! ## Lap machinery lemmas -/

lemma rearmUpd_beforeTime (s : LapState) (c : Cycle) :
    (rearm (speedUpd s c) c).beforeTime = s.beforeTime := by
  unfold rearm speedUpd
  split_ifs <;> rfl

lemma rearmUpd_lapCount (s : LapState) (c : Cycle) :
    (rearm (speedUpd s c) c).lapCount = s.lapCount := by
  unfold rearm speedUpd
  split_ifs <;> rfl

lemma rearmUpd_sprit (s : LapState) (c : Cycle) :
    (rearm (speedUpd s c) c).sprit = s.sprit := by
  unfold rearm speedUpd
  split_ifs <;> rfl

lemma rearmUpd_averageLap (s : LapState) (c : Cycle) :
    (rearm (speedUpd s c) c).averageLap = s.averageLap := by
  unfold rearm speedUpd
  split_ifs <;> rfl

lemma fires_elapsed (s : LapState) (c : Cycle) (h : fires s c = true) :
    10 < (c.t - s.beforeTime) / 1000 := by
  unfold fires fireCond at h
  rw [decide_eq_true_eq, rearmUpd_beforeTime] at h
  exact h.2.2

lemma step_fires_eq (s : LapState) (c : Cycle) (h : fires s c = true) :
    step s c = fireStep (rearm (speedUpd s c) c) c := by
  unfold step countLAP
  unfold fires at h
  rw [if_pos h]

lemma step_not_fires_eq (s : LapState) (c : Cycle) (h : fires s c = false) :
    step s c = rearm (speedUpd s c) c := by
  unfold step countLAP
  unfold fires at h
  rw [if_neg (by rw [h]; simp)]

lemma fireStep_beforeTime (s : LapState) (c : Cycle) :
    (fireStep s c).beforeTime = c.t := by
  simp only [fireStep]
  split_ifs <;> simp

lemma fireStep_lapCount (s : LapState) (c : Cycle) :
    (fireStep s c).lapCount = s.lapCount + 1 := by
  simp only [fireStep]
  split_ifs <;> simp

lemma fireStep_sprit (s : LapState) (c : Cycle) (h : 0 < s.lapCount) :
    (fireStep s c).sprit = s.sprit + (c.t - s.beforeTime) / 1000 := by
  simp only [fireStep]
  rw [if_pos h]
  split_ifs <;> simp

lemma fireStep_avg_gt1 (s : LapState) (c : Cycle) (h : 1 < s.lapCount) :
    (fireStep s c).averageLap =
      (s.sprit + (c.t - s.beforeTime) / 1000) / (s.lapCount : ℚ) := by
  simp only [fireStep]
  rw [if_pos (by omega : (0:ℤ) < s.lapCount)]
  split_ifs <;> simp_all

lemma fireStep_avg_eq1 (s : LapState) (c : Cycle) (h : s.lapCount = 1) :
    (fireStep s c).averageLap = s.averageLap := by
  simp only [fireStep]
  rw [if_pos (by omega : (0:ℤ) < s.lapCount)]
  split_ifs <;> simp_all

lemma fireStep_first (s : LapState) (c : Cycle) (h : s.lapCount = 0) :
    (fireStep s c).sprit = s.sprit ∧ (fireStep s c).averageLap = s.averageLap := by
  simp only [fireStep]
  rw [if_neg (by omega)]
  exact ⟨rfl, rfl⟩

lemma fireStep_topSpeed0 (s : LapState) (c : Cycle) (h : 0 < s.lapCount)
    (hf : c.fileOk = true) :
    (fireStep s c).topSpeed = 0 := by
  simp only [fireStep]
  rw [if_pos h]
  split_ifs <;> simp_all

lemma step_beforeTime_cases (s : LapState) (c : Cycle) :
    (step s c).beforeTime = s.beforeTime ∨ (step s c).beforeTime = c.t := by
  cases hf : fires s c with
  | false =>
      left
      rw [step_not_fires_eq s c hf, rearmUpd_beforeTime]
  | true =>
      right
      rw [step_fires_eq s c hf, fireStep_beforeTime]

lemma step_no_fire_keep (s : LapState) (c : Cycle) (h : fires s c = false) :
    (step s c).beforeTime = s.beforeTime ∧ (step s c).lapCount = s.lapCount := by
  rw [step_not_fires_eq s c h, rearmUpd_beforeTime, rearmUpd_lapCount]
  exact ⟨rfl, rfl⟩

lemma run_cons (s : LapState) (c : Cycle) (l : List Cycle) :
    run s (c :: l) = run (step s c) l :=
  rfl

lemma run_beforeTime_ge (m : List Cycle) : ∀ (s : LapState) (T : ℚ),
    T ≤ s.beforeTime → (∀ c ∈ m, T ≤ c.t) → T ≤ (run s m).beforeTime := by
  induction m with
  | nil =>
      intro s T h _
      simpa [run] using h
  | cons c m ih =>
      intro s T h hm
      rw [run_cons]
      apply ih
      · rcases step_beforeTime_cases s c with he | he
        · rw [he]
          exact h
        · rw [he]
          exact hm c (by simp)
      · intro x hx
        exact hm x (by simp [hx])


/-! ## Claim C4: the first lap and the average -/

/-- Claim C4 (counterexample): with fires at t = 20 s, 40 s, 80 s (and
exits in between), the running sum after the second fire is 20 — the
duration of the very first completed lap IS included in the sum — and after
the third fire (second lap completion as the claim counts) the
average is 30 = (20 + 40) / 2, not the first recorded duration 20
alone. -/
theorem c4_average_counterexample :
    (run initState [⟨3, false, true, 20000, 0⟩, ⟨10, false, true, 21000, 0⟩,
        ⟨3, false, true, 40000, 0⟩]).sprit = 20 ∧
    (run initState [⟨3, false, true, 20000, 0⟩, ⟨10, false, true, 21000, 0⟩,
        ⟨3, false, true, 40000, 0⟩, ⟨10, false, true, 41000, 0⟩,
        ⟨3, false, true, 80000, 0⟩]).averageLap = 30 ∧
    (30 : ℚ) ≠ 20 := by
  refine ⟨?_, ?_, ?_⟩ <;> with_unfolding_all decide

/-- Claim C4 (amended): the very first fire (lap count 0) leaves the
running sum and the average untouched; every later fire adds the
duration of the completed lap — including that of the very first completed lap —
to the running sum; the average is written only when the pre-fire lap
count exceeds 1, and then equals sum / lapCount, the mean of all
completed laps; the fire that completes the first lap (lap count 1)
leaves the average unchanged. -/
theorem c4_average_amended (s : LapState) (c : Cycle) (h : fires s c = true) :
    (s.lapCount = 0 →
      (step s c).sprit = s.sprit ∧ (step s c).averageLap = s.averageLap) ∧
    (0 < s.lapCount →
      (step s c).sprit = s.sprit + (c.t - s.beforeTime) / 1000) ∧
    (s.lapCount = 1 → (step s c).averageLap = s.averageLap) ∧
    (1 < s.lapCount → (step s c).averageLap =
      (s.sprit + (c.t - s.beforeTime) / 1000) / (s.lapCount : ℚ)) := by
  rw [step_fires_eq s c h]
  refine ⟨?_, ?_, ?_, ?_⟩
  · intro h0
    have hfst := fireStep_first (rearm (speedUpd s c) c) c
      (by rw [rearmUpd_lapCount]; exact h0)
    rw [rearmUpd_sprit, rearmUpd_averageLap] at hfst
    exact hfst
  · intro h0
    rw [fireStep_sprit _ c (by rw [rearmUpd_lapCount]; exact h0),
      rearmUpd_sprit, rearmUpd_beforeTime]
  · intro h0
    rw [fireStep_avg_eq1 _ c (by rw [rearmUpd_lapCount]; exact h0),
      rearmUpd_averageLap]
  · intro h0
    rw [fireStep_avg_gt1 _ c (by rw [rearmUpd_lapCount]; exact h0),
      rearmUpd_sprit, rearmUpd_beforeTime, rearmUpd_lapCount]

/-- Witness for the amended C4 theorem: a fire from lap count 2 with
sum 20, duration (40000 - 20000) / 1000 = 20. -/
theorem c4_average_amended_witness :
    fires { initState with lapCount := 2, beforeTime := 20000, sprit := 20 }
      ⟨3, false, true, 40000, 0⟩ = true ∧
    ((step { initState with lapCount := 2, beforeTime := 20000, sprit := 20 }
        ⟨3, false, true, 40000, 0⟩).sprit =
      ({ initState with lapCount := 2, beforeTime := 20000, sprit := 20 } :
        LapState).sprit + (40000 - 20000) / 1000) :=
  ⟨by with_unfolding_all decide,
    (c4_average_amended
      { initState with lapCount := 2, beforeTime := 20000, sprit := 20 }
      ⟨3, false, true, 40000, 0⟩ (by with_unfolding_all decide)).2.1
      (by decide)⟩

/-! ## Claim C5: persistence failure -/



lemma preState_fileOk (s : LapState) (c : Cycle) (b : Bool) :
    rearm (speedUpd s (withFileOk c b)) (withFileOk c b) =
      rearm (speedUpd s c) c := by
  unfold rearm speedUpd withFileOk
  dsimp only

lemma fires_fileOk (s : LapState) (c : Cycle) (b : Bool) :
    fires s (withFileOk c b) = fires s c := by
  unfold fires fireCond withFileOk
  dsimp only
  rw [show (⟨c.dist, c.btnC, b, c.t, c.kmph⟩ : Cycle) = withFileOk c b from rfl,
    preState_fileOk]

/-- Claim C5 (counterexample): after a first fire with top speed 30 and
a re-arm, a second fire with the SD file failing to open leaves the
top-speed accumulator at 30, while the same fire with the file opening
resets it to 0: the post-fire states differ, so the state after a
failed emit is not the state a successful emit would leave. -/
theorem c5_persistence_counterexample :
    (run initState [⟨3, false, true, 20000, 30⟩, ⟨10, false, true, 25000, 0⟩,
        ⟨3, false, false, 40000, 0⟩]).topSpeed = 30 ∧
    (run initState [⟨3, false, true, 20000, 30⟩, ⟨10, false, true, 25000, 0⟩,
        ⟨3, false, true, 40000, 0⟩]).topSpeed = 0 ∧
    (run initState [⟨3, false, true, 20000, 30⟩, ⟨10, false, true, 25000, 0⟩,
        ⟨3, false, false, 40000, 0⟩]).topSpeed ≠
      (run initState [⟨3, false, true, 20000, 30⟩, ⟨10, false, true, 25000, 0⟩,
        ⟨3, false, true, 40000, 0⟩]).topSpeed := by
  refine ⟨?_, ?_, ?_⟩ <;> with_unfolding_all decide

/-- Claim C5 (amended): whether persistence succeeds affects nothing
except the top-speed accumulator: the post-cycle states with the sink
failing and with it succeeding agree once the top-speed field is erased (lap
count, lap history, best lap, running sum, average, armed flag and
trigger timestamp are unaffected); the accumulator itself is reset to
zero exactly on a successful emit of a non-first fire. -/
theorem c5_persistence_amended (s : LapState) (c : Cycle) :
    eraseTop (step s (withFileOk c false)) =
      eraseTop (step s (withFileOk c true)) ∧
    (fires s c = true → 0 < s.lapCount →
      (step s (withFileOk c true)).topSpeed = 0) := by
  constructor
  · cases hf : fires s c with
    | true =>
        have h1 : fires s (withFileOk c false) = true := by
          rw [fires_fileOk]; exact hf
        have h2 : fires s (withFileOk c true) = true := by
          rw [fires_fileOk]; exact hf
        rw [step_fires_eq _ _ h1, step_fires_eq _ _ h2, preState_fileOk,
          preState_fileOk]
        simp only [fireStep, eraseTop, withFileOk]
        split_ifs <;> simp_all
    | false =>
        have h1 : fires s (withFileOk c false) = false := by
          rw [fires_fileOk]; exact hf
        have h2 : fires s (withFileOk c true) = false := by
          rw [fires_fileOk]; exact hf
        rw [step_not_fires_eq _ _ h1, step_not_fires_eq _ _ h2, preState_fileOk,
          preState_fileOk]
  · intro hf h0
    have h2 : fires s (withFileOk c true) = true := by
      rw [fires_fileOk]; exact hf
    rw [step_fires_eq _ _ h2, preState_fileOk]
    exact fireStep_topSpeed0 _ _ (by rw [rearmUpd_lapCount]; exact h0) rfl

/-- Witness for the amended C5 theorem: a non-first fire with the sink
available resets the accumulator to zero. -/
theorem c5_persistence_amended_witness :
    fires { initState with lapCount := 1, topSpeed := 30 }
      ⟨3, false, true, 20000, 0⟩ = true ∧
    (step { initState with lapCount := 1, topSpeed := 30 }
      (⟨3, false, true, 20000, 0⟩ : Cycle)).topSpeed = 0 :=
  ⟨by with_unfolding_all decide,
    (c5_persistence_amended { initState with lapCount := 1, topSpeed := 30 }
      ⟨3, false, true, 20000, 0⟩).2 (by with_unfolding_all decide) (by decide)⟩

/-! ## Claim C6: effects shared by every fire -/

/-- Claim C6 (counterexample): the very first fire of a session (lap
count 0 to 1, top speed accumulated to 30 this cycle) increments the
lap count and sets the trigger timestamp, but does NOT reset the
top-speed accumulator: `writeData` — which performs the reset — is
only called on later fires. -/
theorem c6_fire_counterexample :
    fires initState ⟨3, false, true, 20000, 30⟩ = true ∧
    (step initState ⟨3, false, true, 20000, 30⟩).lapCount = 1 ∧
    (step initState ⟨3, false, true, 20000, 30⟩).topSpeed = 30 ∧
    (30 : ℚ) ≠ 0 := by
  refine ⟨?_, ?_, ?_, ?_⟩ <;> with_unfolding_all decide

/-- Claim C6 (amended): every fire increments the lap count and resets
the trigger timestamp to the clock of the cycle; the per-lap top-speed
accumulator is reset to zero only on a non-first fire whose record is
successfully persisted. -/
theorem c6_fire_amended (s : LapState) (c : Cycle) (h : fires s c = true) :
    (step s c).lapCount = s.lapCount + 1 ∧
    (step s c).beforeTime = c.t ∧
    (0 < s.lapCount → c.fileOk = true → (step s c).topSpeed = 0) := by
  rw [step_fires_eq s c h]
  refine ⟨?_, fireStep_beforeTime _ _, ?_⟩
  · rw [fireStep_lapCount, rearmUpd_lapCount]
  · intro h0 hfo
    exact fireStep_topSpeed0 _ _ (by rw [rearmUpd_lapCount]; exact h0) hfo

/-- Witness for the amended C6 theorem. -/
theorem c6_fire_amended_witness :
    fires { initState with lapCount := 1, topSpeed := 30 }
      ⟨3, false, true, 40000, 0⟩ = true ∧
    (step { initState with lapCount := 1, topSpeed := 30 }
      (⟨3, false, true, 40000, 0⟩ : Cycle)).topSpeed = 0 :=
  ⟨by with_unfolding_all decide,
    (c6_fire_amended { initState with lapCount := 1, topSpeed := 30 }
      ⟨3, false, true, 40000, 0⟩ (by with_unfolding_all decide)).2.2
      (by decide) rfl⟩

/-! ## Claim C7: the 10-second debounce -/



/-- Claim C7: two fires are always more than 10 seconds apart — for any
state, if a cycle fires and, after any further cycles whose clock never
runs backwards past the first fire, another cycle fires, then the two
trigger timestamps differ by more than 10 s.  Concretely, two dips
within 10 s produce one lap event while two dips more than 10 s apart
with an intervening exit produce two. -/
theorem c7_debounce :
    (∀ (s : LapState) (c1 : Cycle) (m : List Cycle) (c2 : Cycle),
      fires s c1 = true →
      (∀ c ∈ m, c1.t ≤ c.t) →
      fires (run (step s c1) m) c2 = true →
      10 < (c2.t - c1.t) / 1000) ∧
    (run initState dipsFast).lapCount = 1 ∧
    (run initState dipsSlow).lapCount = 2 := by
  refine ⟨?_, by with_unfolding_all decide, by with_unfolding_all decide⟩
  intro s c1 m c2 h1 hm h2
  have hb1 : (step s c1).beforeTime = c1.t := by
    rw [step_fires_eq _ _ h1, fireStep_beforeTime]
  have hge : c1.t ≤ (run (step s c1) m).beforeTime :=
    run_beforeTime_ge m (step s c1) c1.t (le_of_eq hb1.symm) hm
  have hel := fires_elapsed _ _ h2
  rw [lt_div_iff₀ (by norm_num : (0:ℚ) < 1000)] at hel ⊢
  linarith

/-- Witness for the C7 theorem: fires at 20 s and 31.001 s with an exit
at 25 s in between. -/
theorem c7_debounce_witness :
    fires initState ⟨3, false, true, 20000, 0⟩ = true ∧
    10 < ((⟨3, false, true, 31001, 0⟩ : Cycle).t -
      (⟨3, false, true, 20000, 0⟩ : Cycle).t) / 1000 :=
  ⟨by with_unfolding_all decide,
    c7_debounce.1 initState ⟨3, false, true, 20000, 0⟩
      [⟨10, false, true, 25000, 0⟩] ⟨3, false, true, 31001, 0⟩
      (by with_unfolding_all decide) (by with_unfolding_all decide)
      (by with_unfolding_all decide)⟩

/-! ## Claim C8: zero distance never triggers -/

/-- Claim C8: in any state, a cycle whose distance-to-reference is
exactly 0 and whose manual override is not held never fires a lap
event, and the lap count is unchanged.  (With the override held a lap
can still fire at distance 0, but the trigger is the override, not the
distance.) -/
theorem c8_zero_distance (s : LapState) (c : Cycle) (h0 : c.dist = 0)
    (hb : c.btnC = false) :
    fires s c = false ∧ (step s c).lapCount = s.lapCount := by
  have hf : fires s c = false := by
    unfold fires fireCond
    rw [decide_eq_false_iff_not]
    intro hp
    rcases hp.1 with ⟨hne, _⟩ | hbt
    · exact hne h0
    · rw [hb] at hbt
      exact Bool.false_ne_true hbt
  exact ⟨hf, (step_no_fire_keep s c hf).2⟩

/-- Witness for the C8 theorem at the zero-initialised state. -/
theorem c8_zero_distance_witness :
    (⟨0, false, true, 20000, 0⟩ : Cycle).dist = 0 ∧
    (fires initState ⟨0, false, true, 20000, 0⟩ = false ∧
      (step initState ⟨0, false, true, 20000, 0⟩).lapCount =
        initState.lapCount) :=
  ⟨rfl, c8_zero_distance initState ⟨0, false, true, 20000, 0⟩ rfl rfl⟩

/-! ## Claim C10: the debounce applies from startup -/

lemma fires_early (s : LapState) (c : Cycle) (hbt : s.beforeTime = 0)
    (ht : c.t ≤ 10000) :
    fires s c = false := by
  unfold fires fireCond
  rw [decide_eq_false_iff_not, rearmUpd_beforeTime, hbt]
  intro hp
  have h3 := hp.2.2
  rw [lt_div_iff₀ (by norm_num : (0:ℚ) < 1000)] at h3
  linarith

/-- Claim C10: the last-trigger timestamp starts zero-initialised, so
during the first 10 seconds of a session (clock at most 10000 ms) no
cycle — geofence entry or manual override alike — can fire: the lap
count stays 0 and the timestamp stays 0. -/
theorem c10_startup_debounce (l : List Cycle)
    (hl : ∀ c ∈ l, 0 ≤ c.t ∧ c.t ≤ 10000) :
    (run initState l).lapCount = 0 ∧ (run initState l).beforeTime = 0 := by
  suffices aux : ∀ (m : List Cycle) (s : LapState), s.beforeTime = 0 →
      s.lapCount = 0 → (∀ c ∈ m, c.t ≤ 10000) →
      (run s m).lapCount = 0 ∧ (run s m).beforeTime = 0 by
    exact aux l initState rfl rfl (fun c hc => (hl c hc).2)
  intro m
  induction m with
  | nil =>
      intro s h1 h2 _
      exact ⟨h2, h1⟩
  | cons c m ih =>
      intro s h1 h2 hm
      rw [run_cons]
      have hf := fires_early s c h1 (hm c (by simp))
      exact ih (step s c) ((step_no_fire_keep s c hf).1.trans h1)
        ((step_no_fire_keep s c hf).2.trans h2) (fun x hx => hm x (by simp [hx]))

/-- Witness for the C10 theorem: a manual-override press at 5 s and a
geofence dip at exactly 10 s both stay silent. -/
theorem c10_startup_debounce_witness :
    (∀ c ∈ ([⟨0, true, true, 5000, 0⟩, ⟨3, false, true, 10000, 0⟩] :
        List Cycle), 0 ≤ c.t ∧ c.t ≤ 10000) ∧
    ((run initState [⟨0, true, true, 5000, 0⟩,
        ⟨3, false, true, 10000, 0⟩]).lapCount = 0 ∧
      (run initState [⟨0, true, true, 5000, 0⟩,
        ⟨3, false, true, 10000, 0⟩]).beforeTime = 0) :=
  ⟨by with_unfolding_all decide,
    c10_startup_debounce [⟨0, true, true, 5000, 0⟩, ⟨3, false, true, 10000, 0⟩]
      (by with_unfolding_all decide)⟩

end GPSLap
